import Mathlib

/-!
# Verification of the CmdArgs command-line argument parser

Shallow embedding of `CmdArgs.h` (the variant with current-working-directory
anchoring, distinguished target-directory error messages and target-extension
validation; the simpler `src/CmdArgs.h` variant of the configuration check is
embedded separately as `checkError_v1`).

`std::filesystem::path` is modelled as a string in generic (POSIX) format,
with the component operations (`filename`, `parent_path`, `extension`,
`replace_extension`, `operator/`) defined on the underlying character lists.
The filesystem itself is abstract: a current working directory plus the sets
of paths that exist as directories and as regular files.
-/

namespace CmdArgs

/-! ## Path model -/

/-- ASCII lowercasing of one character, as `std::tolower` in the C locale. -/
def lowerChar (c : Char) : Char :=
  if 'A' ≤ c ∧ c ≤ 'Z' then Char.ofNat (c.toNat + 32) else c

/-- Model of `cmd::tolower` on the character list of a string. -/
def tolowerL (cs : List Char) : List Char := cs.map lowerChar

/-- Model of `cmd::tolower`: lowercase every character of a string. -/
def tolower (s : String) : String := ⟨tolowerL s.data⟩

/-- Test that a character is not the directory separator. -/
def notSep (c : Char) : Bool := c ≠ '/'

/-- Test that a character is not the extension dot. -/
def notDot (c : Char) : Bool := c ≠ '.'

/-- Model of `path::filename()`: the maximal suffix without a separator. -/
def fileNameL (cs : List Char) : List Char :=
  (cs.reverse.takeWhile notSep).reverse

/-- Model of `path::filename()` on strings. -/
def fileName (s : String) : String := ⟨fileNameL s.data⟩

/-- The directory part of a path: everything up to and including the last
separator (the complement of `fileNameL`). -/
def dirPartL (cs : List Char) : List Char :=
  (cs.reverse.dropWhile notSep).reverse

/-- Model of `path::parent_path()`: the directory part without its trailing separator;
a directory part that is just the root separator (or empty) stays as it is. -/
def parentPathL (cs : List Char) : List Char :=
  if (dirPartL cs).length ≤ 1 then dirPartL cs else (dirPartL cs).dropLast

/-- Model of `path::parent_path()` on strings. -/
def parentPath (s : String) : String := ⟨parentPathL s.data⟩

/-- The extension of a filename: its trailing `.suffix`, empty when the
filename is `.` or `..`, has no dot, or its only dot is the leading one. -/
def extOfFn (fn : List Char) : List Char :=
  if fn = ['.'] ∨ fn = ['.', '.'] then []
  else
    let pre := fn.reverse.takeWhile notDot
    if pre.length = fn.length then []
    else if pre.length + 1 = fn.length then []
    else '.' :: pre.reverse

/-- Model of `path::extension()`. -/
def extensionL (cs : List Char) : List Char := extOfFn (fileNameL cs)

/-- Model of `path::extension()` on strings. -/
def extension (s : String) : String := ⟨extensionL s.data⟩

/-- Model of `path::has_extension()`. -/
def hasExtension (s : String) : Bool := !(extensionL s.data).isEmpty

/-- The whole path without its extension (what `replace_extension` keeps). -/
def stemPathL (cs : List Char) : List Char :=
  cs.take (cs.length - (extensionL cs).length)

/-- Model of `path::stem()`: the filename without its extension. -/
def stemL (cs : List Char) : List Char :=
  let fn := fileNameL cs
  fn.take (fn.length - (extensionL cs).length)

/-- Model of `path::stem()` on strings. -/
def stem (s : String) : String := ⟨stemL s.data⟩

/-- Model of `path::replace_extension(e)`: drop the current extension, then append `e`,
inserting a dot when `e` is nonempty and does not already start with one. -/
def replaceExtensionL (cs e : List Char) : List Char :=
  stemPathL cs ++ (if e = [] then [] else if e.head? = some '.' then e else '.' :: e)

/-- Model of `path::replace_extension` on strings. -/
def replaceExtension (s e : String) : String := ⟨replaceExtensionL s.data e.data⟩

/-- Model of appending (`path::operator/`): append a relative path, replacing by `q` when `q`
is absolute. -/
def pathAppendL (p q : List Char) : List Char :=
  if q.head? = some '/' then q
  else if p = [] then q
  else if p.getLast? = some '/' then p ++ q
  else p ++ '/' :: q

/-- Model of path appending on strings. -/
def pathAppend (p q : String) : String := ⟨pathAppendL p.data q.data⟩

/-- Model of `cmd::getExtension`: the lowercased extension without its leading dot. -/
def getExtensionL (cs : List Char) : List Char :=
  let ext := tolowerL (extensionL cs)
  if ext.head? = some '.' then ext.tail else ext

/-- Model of `cmd::getExtension` on strings. -/
def getExtension (s : String) : String := ⟨getExtensionL s.data⟩

/-! ## Abstract filesystem -/

/-- Abstract filesystem state: the current working directory and the paths that
exist as directories and as regular files. -/
structure FS where
  cwd : String
  dirs : List String
  files : List String
deriving DecidableEq, Repr

/-- Model of `std::filesystem::is_directory`. -/
def isDirectory (fs : FS) (p : String) : Bool := fs.dirs.contains p

/-- Model of `std::filesystem::exists`. -/
def pathExists (fs : FS) (p : String) : Bool := fs.dirs.contains p || fs.files.contains p

/-! ## Flags and configuration -/

/-- Model of `cmd::cmd_flag`: a named boolean flag with its configured default. The
constructor `cmd_flag(flag, on)` stores `on` both as the current state and as
the default (`defaultOn`). -/
structure cmd_flag where
  name : String
  isOn : Bool
  defaultOn : Bool
deriving DecidableEq, Repr

/-- Model of `cmd_flag::clear()`: reset the flag to its configured default. -/
def clearFlag (f : cmd_flag) : cmd_flag := { f with isOn := f.defaultOn }

/-- The state a flag token mutates: set the named flag enabled (`*f = true`). -/
def setFlag (fl : List cmd_flag) (n : String) : List cmd_flag :=
  fl.map fun f => if f.name = n then { f with isOn := true } else f

/-- Read a flag from the registry by name (`operator bool`). -/
def flagOn (fl : List cmd_flag) (n : String) : Bool :=
  match fl.find? (fun f => f.name = n) with
  | some f => f.isOn
  | none => false

/-- The configured default of a registered flag. -/
def flagDefault (fl : List cmd_flag) (n : String) : Bool :=
  match fl.find? (fun f => f.name = n) with
  | some f => f.defaultOn
  | none => false

/-- The compile-time configuration surface: the accepted extension lists.
The flag registry travels with the mutable state, as in the source, where
`cmd_flags` is both the configuration and the mutated objects. -/
structure Config where
  source_ext : List String
  target_ext : List String
deriving DecidableEq, Repr

/-- The global mutable state of the parser: `cmd::source`, `cmd::target` and
the registered flags with their current values. -/
structure GState where
  source : String
  target : String
  flags : List cmd_flag
deriving DecidableEq, Repr

/-! ## The configured demo values from the source -/

/-- The configured `cmd::source_ext`. -/
def source_ext : List String := ["txt", "csv", "json"]

/-- The configured `cmd::target_ext`. -/
def target_ext : List String := ["csv", "json", "txt"]

/-- The registered flags: `convert` (enabled by default), `translate`, `help`
and `version`. -/
def cmd_flags : List cmd_flag :=
  [⟨"convert", true, true⟩, ⟨"translate", false, false⟩,
   ⟨"help", false, false⟩, ⟨"version", false, false⟩]

/-- Model of `cmd::defaultExt`: the first entry of an extension list, or empty. -/
def defaultExt (list : List String) : String := list.headD ("")

/-- Model of `cmd::defaultTargetExt`. -/
def defaultTargetExt (c : Config) : String := defaultExt c.target_ext

/-- Model of `cmd::join`. -/
def join : List String → String → String
  | [], _ => ""
  | [x], _ => x
  | x :: y :: rest, d => x ++ d ++ join (y :: rest) d

/-- The configured `cmd::text_version`. -/
def text_version : String := "MyProgram version: 1.0.0"

/-- The configured `cmd::text_help`, assembled exactly as in the source. -/
def text_help : String :=
  "\nUsage: MyProgram [options] <source_path> [target_path]\n\n"
    ++ "Options:\n\n"
    ++ "  -convert       Convert the source to the target format (default)\n"
    ++ "  -translate     Enable translation (must be specified)\n"
    ++ "  -help          Show this help message\n"
    ++ "  -version       Show version information\n"
    ++ "\n"
    ++ "File extensions:\n\n"
    ++ "  Source: " ++ join source_ext (", ") ++ "\n"
    ++ "  Target: " ++ join target_ext (", ") ++ "\n\n"
    ++ "Notes:\n\n"
    ++ "  Paths are resolved relative to the current working directory.\n"
    ++ "  If target_path is given without a directory, it is placed next to the source file.\n"
    ++ "  If target_path is a directory, output is placed in that directory.\n"
    ++ "  If target_path is omitted, the output name is derived from the source file.\n"
    ++ "  Example:  input.txt  ->  input.csv\n"

/-- The demo configuration from the source. -/
def defaultConfig : Config := ⟨source_ext, target_ext⟩

/-- The initial global state: empty paths, registered flags at their defaults. -/
def defaultState : GState := ⟨"", "", cmd_flags⟩

/-! ## The parser -/

/-- Result of one `parse` call. `thrown` is the `std::runtime_error` raised by
the configuration check; `exited` is the process termination performed by the
help/version path; `err` is the recoverable `false` return after printing an
error message; `ok` is the `true` return. -/
inductive Outcome where
  | ok : Outcome
  | err : String → Outcome
  | exited : Nat → String → Outcome
  | thrown : String → Outcome
deriving DecidableEq, Repr

/-- Result of `parseFiles`: on success the values assigned to `cmd::source`
and `cmd::target`, otherwise the error message. -/
inductive FOut where
  | ok : String → String → FOut
  | err : String → FOut
deriving DecidableEq, Repr

/-- The state-reset half of `CmdArgumentParser::check`: clear `cmd::source`
and `cmd::target` and reset every registered flag to its configured default
(`f->clear()`). -/
def resetState (st : GState) : GState :=
  { source := "", target := "", flags := st.flags.map clearFlag }

/-- The validation half of `CmdArgumentParser::check` (the variant without the
whole-list equality test): the first `runtime_error` it would throw, if any. -/
def checkError (c : Config) (fl : List cmd_flag) : Option String :=
  if c.source_ext = [] ∨ c.target_ext = [] then
    some ("Error: source_ext or target_ext is not defined.")
  else if ¬ (fl.map cmd_flag.name).contains ("help") then
    some ("Error: cmd_flags must contain \x27help\x27 flag.")
  else if ¬ (fl.map cmd_flag.name).contains ("version") then
    some ("Error: cmd_flags must contain \x27version\x27 flag.")
  else if fl.length < 3 then
    some ("Error: cmd_flags is not defined.")
  else none

/-- The validation performed by `check` in the `src/CmdArgs.h` variant, which
additionally rejects identical source and target extension lists. -/
def checkError_v1 (c : Config) (fl : List cmd_flag) : Option String :=
  if c.source_ext = [] ∨ c.target_ext = [] then
    some ("Error: source_ext or target_ext is not defined.")
  else if c.source_ext = c.target_ext then
    some ("Error: source_ext and target_ext cannot be the same.")
  else if ¬ (fl.map cmd_flag.name).contains ("help") then
    some ("Error: cmd_flags must contain \x27help\x27 flag.")
  else if ¬ (fl.map cmd_flag.name).contains ("version") then
    some ("Error: cmd_flags must contain \x27version\x27 flag.")
  else if fl.length < 3 then
    some ("Error: cmd_flags is not defined.")
  else none

/-- Token classification in `parse`: each nonempty argument beginning with
`-` is a flag token, every other nonempty argument a positional token. -/
def tokenize : List String → List String × List String
  | [] => ([], [])
  | a :: rest =>
    let r := tokenize rest
    if a = "" then r
    else if a.data.head? = some '-' then (a :: r.1, r.2)
    else (r.1, a :: r.2)

/-- The inner matching loop of `parseFlags`: the first registered flag whose
name, with one or two leading dashes, equals the token. -/
def matchFlag (fl : List cmd_flag) (tok : String) : Option String :=
  match fl with
  | [] => none
  | f :: rest =>
    if tok = "-" ++ f.name ∨ tok = "--" ++ f.name then some f.name
    else matchFlag rest tok

/-- The token loop of `parseFlags`: set each matched flag, counting matches;
stop at the first unknown flag. Returns the updated registry, the number of
matched flag tokens, and the error if one occurred. -/
def runFlags (fl : List cmd_flag) (toks : List String) (count : Nat) :
    List cmd_flag × Nat × Option String :=
  match toks with
  | [] => (fl, count, none)
  | t :: ts =>
    match matchFlag fl t with
    | some n => runFlags (setFlag fl n) ts (count + 1)
    | none => (fl, count, some ("argument: Unknown flag " ++ t))

/-- Source anchoring: a source token without a directory component is anchored
to the current working directory. -/
def resolveSource (fs : FS) (s : String) : String :=
  if parentPath s = "" then pathAppend fs.cwd s else s

/-- Target anchoring: a target token without a directory component is anchored
to the source file directory. -/
def resolveTarget (src t : String) : String :=
  if parentPath t = "" then pathAppend (parentPath src) t else t

/-- The tail of `parseFiles`: the identity check and the target-extension
validation, then the assignment to `cmd::source` and `cmd::target`. -/
def finishFiles (c : Config) (src tgt : String) : FOut :=
  if tolower src = tolower tgt then
    FOut.err ("Source and target files are the same")
  else if ¬ c.target_ext.contains (getExtension tgt) then
    FOut.err ("Target file is not a valid extension: " ++ tgt)
  else FOut.ok src tgt

/-- The explicit-target branch of `parseFiles` (`files.size() == 2`). -/
def targetStage (c : Config) (fs : FS) (src t : String) : FOut :=
  let t2 := resolveTarget src t
  if parentPath t2 ≠ "" ∧ ¬ isDirectory fs (parentPath t2) then
    if hasExtension t2 then FOut.err ("Target file has unknown directory " ++ t2)
    else FOut.err ("Target directory does not exist " ++ t2)
  else if ¬ hasExtension t2 then
    if ¬ isDirectory fs t2 then FOut.err ("Target directory does not exist " ++ t2)
    else finishFiles c src (replaceExtension (pathAppend t2 (fileName src)) (defaultTargetExt c))
  else finishFiles c src t2

/-- Model of `CmdArgumentParser::parseFiles`. -/
def parseFiles (c : Config) (fs : FS) (files : List String) : FOut :=
  match files with
  | [] => FOut.err ("No source file specified")
  | file0 :: rest =>
    if rest.length > 1 then FOut.err ("argument: Too many arguments")
    else if isDirectory fs file0 then
      if rest ≠ [] then FOut.err ("argument: Too many arguments")
      else FOut.ok file0 ("")
    else
      let src := resolveSource fs file0
      if ¬ pathExists fs src then
        FOut.err ("Could not find the source file " ++ file0)
      else if ¬ c.source_ext.contains (getExtension src) then
        FOut.err ("Source file is not a valid extension: " ++ src)
      else
        match rest with
        | [] => finishFiles c src (replaceExtension src (defaultTargetExt c))
        | t :: _ => targetStage c fs src t

/-- The flag-resolution phase of a `parse` call: the registry after processing
the flag tokens, the number of matched flag tokens, and the error if an
unknown flag was seen. -/
def flagPhase (stIn : GState) (args : List String) :
    List cmd_flag × Nat × Option String :=
  runFlags (resetState stIn).flags (tokenize args).1 0

/-- Model of `CmdArgumentParser::parse` over the abstract filesystem, threading the
global state explicitly. `args` is `argv[1..]`. -/
def parse (c : Config) (fs : FS) (stIn : GState) (args : List String) :
    GState × Outcome :=
  match checkError c (resetState stIn).flags with
  | some m => (resetState stIn, Outcome.thrown m)
  | none =>
    match (flagPhase stIn args).2.2 with
    | some m =>
      ({ resetState stIn with flags := (flagPhase stIn args).1 }, Outcome.err m)
    | none =>
      if flagOn (flagPhase stIn args).1 ("help") = true
          ∨ flagOn (flagPhase stIn args).1 ("version") = true then
        if (flagPhase stIn args).2.1 > 1 ∨ (tokenize args).2.length ≠ 0 then
          ({ resetState stIn with flags := (flagPhase stIn args).1 },
            Outcome.err ("argument: Too many arguments"))
        else if flagOn (flagPhase stIn args).1 ("help") then
          ({ resetState stIn with flags := (flagPhase stIn args).1 },
            Outcome.exited 0 text_help)
        else
          ({ resetState stIn with flags := (flagPhase stIn args).1 },
            Outcome.exited 0 text_version)
      else
        match parseFiles c fs (tokenize args).2 with
        | FOut.ok s t =>
          ({ source := s, target := t, flags := (flagPhase stIn args).1 }, Outcome.ok)
        | FOut.err m =>
          ({ resetState stIn with flags := (flagPhase stIn args).1 }, Outcome.err m)

/-! ## List-level facts about the path operations -/

theorem takeWhile_append_all {α : Type} (p : α → Bool) (a b : List α)
    (h : ∀ x ∈ a, p x = true) :
    (a ++ b).takeWhile p = a ++ b.takeWhile p := by
  induction a with
  | nil => simp
  | cons x xs ih =>
    have hx : p x = true := h x (by simp)
    simp only [List.cons_append, List.takeWhile_cons, hx, if_true]
    rw [ih (fun y hy => h y (by simp [hy]))]

theorem takeWhile_cons_false {α : Type} (p : α → Bool) (c : α) (l : List α)
    (h : p c = false) : (c :: l).takeWhile p = [] := by
  simp [List.takeWhile_cons, h]

theorem dropWhile_head_false {α : Type} (p : α → Bool) (l tl : List α) (c : α)
    (h : l.dropWhile p = c :: tl) : p c = false := by
  induction l with
  | nil => simp at h
  | cons x xs ih =>
    by_cases hx : p x = true
    · rw [List.dropWhile_cons_of_pos hx] at h
      exact ih h
    · rw [List.dropWhile_cons_of_neg hx] at h
      cases h
      simpa using hx

theorem fileNameL_no_sep (cs : List Char) : '/' ∉ fileNameL cs := by
  intro hmem
  have h1 : '/' ∈ (cs.reverse.takeWhile notSep) := by
    simpa [fileNameL] using hmem
  have h2 : notSep '/' = true := List.mem_takeWhile_imp h1
  simp [notSep] at h2

theorem fileNameL_of_no_sep (q : List Char) (hq : '/' ∉ q) : fileNameL q = q := by
  unfold fileNameL
  rw [List.takeWhile_eq_self_iff.mpr, List.reverse_reverse]
  intro x hx
  have : x ∈ q := List.mem_reverse.mp hx
  simp only [notSep, ne_eq, decide_eq_true_eq]
  rintro rfl
  exact hq this

theorem dirPart_append_fileName (cs : List Char) :
    dirPartL cs ++ fileNameL cs = cs := by
  unfold dirPartL fileNameL
  rw [← List.reverse_append, List.takeWhile_append_dropWhile, List.reverse_reverse]

theorem dirPart_getLast (cs : List Char) (h : dirPartL cs ≠ []) :
    (dirPartL cs).getLast? = some '/' := by
  rcases hd : cs.reverse.dropWhile notSep with _ | ⟨c, tl⟩
  · exact absurd (by simp [dirPartL, hd]) h
  · have hc : notSep c = false := dropWhile_head_false _ _ _ _ hd
    have hc2 : c = '/' := by simpa [notSep] using hc
    subst hc2
    simp [dirPartL, hd]

theorem fileNameL_all_append (a b : List Char) (hb : '/' ∉ b) :
    fileNameL (a ++ b) = fileNameL a ++ b := by
  unfold fileNameL
  rw [List.reverse_append, takeWhile_append_all _ _ _ ?hall, List.reverse_append,
    List.reverse_reverse]
  case hall =>
    intro x hx
    have hxb : x ∈ b := List.mem_reverse.mp hx
    simp only [notSep, ne_eq, decide_eq_true_eq]
    rintro rfl
    exact hb hxb

theorem fileNameL_dirPart (cs y : List Char) (hy : '/' ∉ y) :
    fileNameL (dirPartL cs ++ y) = y := by
  rcases hdp : dirPartL cs with _ | ⟨c, tl⟩
  · simpa using fileNameL_of_no_sep y hy
  · have hlast : (dirPartL cs).getLast? = some '/' := dirPart_getLast cs (by simp [hdp])
    rw [fileNameL_all_append _ _ hy]
    suffices hfn : fileNameL (c :: tl) = [] by
      rw [hfn, List.nil_append]
    rw [← hdp]
    unfold fileNameL
    have hhead : (dirPartL cs).reverse.head? = some '/' := by
      rw [List.head?_reverse]
      exact hlast
    rcases hrev : (dirPartL cs).reverse with _ | ⟨c2, tl2⟩
    · simp
    · rw [hrev] at hhead
      have : c2 = '/' := by simpa using hhead
      subst this
      rw [takeWhile_cons_false _ _ _ (by simp [notSep])]
      simp

theorem parentPathL_eq_nil_iff (cs : List Char) :
    parentPathL cs = [] ↔ '/' ∉ cs := by
  constructor
  · intro h hm
    have hdp : dirPartL cs ≠ [] := by
      simp only [dirPartL, ne_eq, List.reverse_eq_nil_iff, List.dropWhile_eq_nil_iff]
      intro hall
      have := hall '/' (List.mem_reverse.mpr hm)
      simp [notSep] at this
    rw [parentPathL] at h
    split at h
    · exact hdp h
    · next hlen =>
      have h2 : (dirPartL cs).length ≤ 1 := by
        have := List.length_dropLast (dirPartL cs)
        rw [h] at this
        simp at this
        omega
      exact hlen h2
  · intro h
    have hdp : dirPartL cs = [] := by
      simp only [dirPartL, List.reverse_eq_nil_iff, List.dropWhile_eq_nil_iff]
      intro x hx
      have hxc : x ∈ cs := List.mem_reverse.mp hx
      simp only [notSep, ne_eq, decide_eq_true_eq]
      rintro rfl
      exact h hxc
    rw [parentPathL, hdp]
    simp

theorem fileNameL_pathAppend (p q : List Char) (hq : '/' ∉ q) :
    fileNameL (pathAppendL p q) = q := by
  unfold pathAppendL
  split
  · next hhead =>
    rcases q with _ | ⟨c, tl⟩
    · simp at hhead
    · have : c = '/' := by simpa using hhead
      subst this
      exact absurd (by simp) hq
  · split
    · exact fileNameL_of_no_sep q hq
    · split
      · next hlast =>
        unfold fileNameL
        rw [List.reverse_append, takeWhile_append_all _ _ _ ?hall]
        case hall =>
          intro x hx
          have hxq : x ∈ q := List.mem_reverse.mp hx
          simp only [notSep, ne_eq, decide_eq_true_eq]
          rintro rfl
          exact hq hxq
        have hhead : p.reverse.head? = some '/' := by
          rw [List.head?_reverse]
          exact hlast
        rcases hrev : p.reverse with _ | ⟨c2, tl2⟩
        · rw [hrev] at hhead
          simp at hhead
        · rw [hrev] at hhead
          have : c2 = '/' := by simpa using hhead
          subst this
          rw [takeWhile_cons_false _ _ _ (by simp [notSep])]
          simp
      · unfold fileNameL
        rw [List.reverse_append, List.reverse_cons, List.append_assoc,
          takeWhile_append_all _ _ _ ?hall]
        case hall =>
          intro x hx
          have hxq : x ∈ q := List.mem_reverse.mp hx
          simp only [notSep, ne_eq, decide_eq_true_eq]
          rintro rfl
          exact hq hxq
        rw [List.singleton_append, takeWhile_cons_false _ _ _ (by simp [notSep])]
        simp


theorem extOfFn_append_dot (sf e : List Char) (hsf : sf ≠ []) (he : e ≠ [])
    (hd : '.' ∉ e) : extOfFn (sf ++ '.' :: e) = '.' :: e := by
  have hsf1 : 1 ≤ sf.length := List.length_pos.mpr hsf
  have he1 : 1 ≤ e.length := List.length_pos.mpr he
  have hpre : (sf ++ '.' :: e).reverse.takeWhile notDot = e.reverse := by
    rw [List.reverse_append, List.reverse_cons, List.append_assoc,
      takeWhile_append_all _ _ _ ?hall, List.singleton_append,
      takeWhile_cons_false _ _ _ (by simp [notDot])]
    · simp
    case hall =>
      intro x hx
      have hxe : x ∈ e := List.mem_reverse.mp hx
      simp only [notDot, ne_eq, decide_eq_true_eq]
      rintro rfl
      exact hd hxe
  have hlen : (sf ++ '.' :: e).length = sf.length + 1 + e.length := by
    simp [List.length_append]
    omega
  have h1 : ¬(sf ++ '.' :: e = ['.'] ∨ sf ++ '.' :: e = ['.', '.']) := by
    rintro (h | h)
    · have hll := congrArg List.length h
      simp [List.length_append] at hll
      omega
    · have hll := congrArg List.length h
      simp [List.length_append] at hll
      omega
  simp only [extOfFn, h1, if_false]
  rw [hpre]
  rw [if_neg (by rw [List.length_reverse, hlen]; omega)]
  rw [if_neg (by rw [List.length_reverse, hlen]; omega)]
  rw [List.reverse_reverse]

theorem extOfFn_split (fn : List Char) (h : extOfFn fn ≠ []) :
    ∃ sf, sf ≠ [] ∧ fn = sf ++ extOfFn fn := by
  by_cases h1 : fn = ['.'] ∨ fn = ['.', '.']
  · exact absurd (by simp [extOfFn, h1]) h
  by_cases h2 : (fn.reverse.takeWhile notDot).length = fn.length
  · exact absurd (by simp [extOfFn, h1, h2]) h
  by_cases h3 : (fn.reverse.takeWhile notDot).length + 1 = fn.length
  · exact absurd (by simp [extOfFn, h1, h2, h3]) h
  have hval : extOfFn fn = '.' :: (fn.reverse.takeWhile notDot).reverse := by
    simp [extOfFn, h1, h2, h3]
  rcases hdw : fn.reverse.dropWhile notDot with _ | ⟨c, tl⟩
  · have hta := @List.takeWhile_append_dropWhile Char notDot fn.reverse
    rw [hdw, List.append_nil] at hta
    exact absurd (by rw [hta, List.length_reverse]) h2
  · have hc : notDot c = false := dropWhile_head_false _ _ _ _ hdw
    have hcdot : c = '.' := by simpa [notDot] using hc
    subst hcdot
    have hsplit := @List.takeWhile_append_dropWhile Char notDot fn.reverse
    rw [hdw] at hsplit
    refine ⟨tl.reverse, ?_, ?_⟩
    · intro htl
      have htl2 : tl = [] := by simpa using htl
      subst htl2
      have := congrArg List.length hsplit
      simp [List.length_append] at this
      omega
    · rw [hval]
      conv_lhs => rw [← List.reverse_reverse fn, ← hsplit]
      rw [List.reverse_append, List.reverse_cons, List.append_assoc,
        List.singleton_append]

theorem stemPathL_eq (cs sf : List Char) (h : fileNameL cs = sf ++ extensionL cs) :
    stemPathL cs = dirPartL cs ++ sf := by
  have hcs : (dirPartL cs ++ sf) ++ extensionL cs = cs := by
    rw [List.append_assoc, ← h, dirPart_append_fileName]
  show cs.take (cs.length - (extensionL cs).length) = dirPartL cs ++ sf
  calc cs.take (cs.length - (extensionL cs).length)
      = ((dirPartL cs ++ sf) ++ extensionL cs).take
          (((dirPartL cs ++ sf) ++ extensionL cs).length - (extensionL cs).length) := by
        rw [hcs]
    _ = ((dirPartL cs ++ sf) ++ extensionL cs).take ((dirPartL cs ++ sf).length) := by
        congr 1
        rw [List.length_append]
        omega
    _ = dirPartL cs ++ sf := List.take_left _ _

theorem stemL_eq (cs sf : List Char) (h : fileNameL cs = sf ++ extensionL cs) :
    stemL cs = sf := by
  show (fileNameL cs).take ((fileNameL cs).length - (extensionL cs).length) = sf
  rw [h]
  have hl : (sf ++ extensionL cs).length - (extensionL cs).length = sf.length := by
    rw [List.length_append]
    omega
  rw [hl, List.take_left]

theorem extensionL_replace (cs e : List Char) (hcs : extensionL cs ≠ [])
    (he : e ≠ []) (hd : '.' ∉ e) (hs : '/' ∉ e) :
    extensionL (replaceExtensionL cs e) = '.' :: e ∧
    stemL (replaceExtensionL cs e) = stemL cs ∧
    fileNameL (replaceExtensionL cs e) = stemL cs ++ '.' :: e := by
  obtain ⟨sf, hsf, hfneq⟩ := extOfFn_split (fileNameL cs) hcs
  have hfneq2 : fileNameL cs = sf ++ extensionL cs := hfneq
  have hstem : stemL cs = sf := stemL_eq cs sf hfneq2
  have hsp : stemPathL cs = dirPartL cs ++ sf := stemPathL_eq cs sf hfneq2
  have hq : replaceExtensionL cs e = dirPartL cs ++ (sf ++ '.' :: e) := by
    unfold replaceExtensionL
    rw [if_neg he, if_neg ?hh, hsp, List.append_assoc]
    case hh =>
      intro hh
      rcases e with _ | ⟨c, tl⟩
      · exact he rfl
      · have : c = '.' := by simpa using hh
        subst this
        exact hd (by simp)
  have hyfree : '/' ∉ (sf ++ '.' :: e) := by
    intro hmem
    rcases List.mem_append.mp hmem with hm | hm
    · exact fileNameL_no_sep cs (by rw [hfneq2]; exact List.mem_append.mpr (Or.inl hm))
    · rcases List.mem_cons.mp hm with hm2 | hm2
      · exact absurd hm2 (by decide)
      · exact hs hm2
  have hfn : fileNameL (replaceExtensionL cs e) = sf ++ '.' :: e := by
    rw [hq]
    exact fileNameL_dirPart _ _ hyfree
  have hext : extensionL (replaceExtensionL cs e) = '.' :: e := by
    unfold extensionL
    rw [hfn]
    exact extOfFn_append_dot sf e hsf he hd
  refine ⟨hext, ?_, by rw [hfn, hstem]⟩
  have hsplit2 : fileNameL (replaceExtensionL cs e)
      = sf ++ extensionL (replaceExtensionL cs e) := by
    rw [hfn, hext]
  rw [stemL_eq _ sf hsplit2, hstem]

theorem getExtensionL_replace (cs e : List Char) (hcs : extensionL cs ≠ [])
    (he : e ≠ []) (hd : '.' ∉ e) (hs : '/' ∉ e) :
    getExtensionL (replaceExtensionL cs e) = tolowerL e := by
  have hext := (extensionL_replace cs e hcs he hd hs).1
  unfold getExtensionL
  rw [hext]
  have hlc : lowerChar '.' = '.' := by decide
  simp [tolowerL, hlc]

theorem extensionL_ne_nil_of_getExtension (cs : List Char)
    (h : getExtensionL cs ≠ []) : extensionL cs ≠ [] := by
  intro h0
  apply h
  simp [getExtensionL, h0, tolowerL]

/-! ## Facts about the flag registry -/

theorem matchFlag_some (fl : List cmd_flag) (tok n : String)
    (h : matchFlag fl tok = some n) : tok = "-" ++ n ∨ tok = "--" ++ n := by
  induction fl with
  | nil => simp [matchFlag] at h
  | cons f rest ih =>
    rw [matchFlag] at h
    split at h
    · next hcond =>
      injection h with h2
      subst h2
      exact hcond
    · exact ih h

theorem flagOn_setFlag_ne (fl : List cmd_flag) (n m : String) (h : n ≠ m) :
    flagOn (setFlag fl m) n = flagOn fl n := by
  induction fl with
  | nil => rfl
  | cons f rest ih =>
    by_cases hf : f.name = m
    · have hn : ¬ f.name = n := fun hc => h ((hc ▸ hf).symm ▸ rfl)
      simp only [setFlag, List.map_cons, if_pos hf]
      rw [flagOn, flagOn,
        List.find?_cons_of_neg _ (by simpa using hn),
        List.find?_cons_of_neg _ (by simpa using hn)]
      exact ih
    · simp only [setFlag, List.map_cons, if_neg hf]
      by_cases hn : f.name = n
      · rw [flagOn, flagOn,
          List.find?_cons_of_pos _ (by simpa using hn),
          List.find?_cons_of_pos _ (by simpa using hn)]
      · rw [flagOn, flagOn,
          List.find?_cons_of_neg _ (by simpa using hn),
          List.find?_cons_of_neg _ (by simpa using hn)]
        exact ih

theorem runFlags_flagOn (fl : List cmd_flag) (toks : List String) (count : Nat)
    (n : String) (h : ∀ t ∈ toks, t ≠ "-" ++ n ∧ t ≠ "--" ++ n) :
    flagOn (runFlags fl toks count).1 n = flagOn fl n := by
  induction toks generalizing fl count with
  | nil => rfl
  | cons t ts ih =>
    rw [runFlags]
    rcases hm : matchFlag fl t with _ | m
    · rfl
    · have hmn : n ≠ m := by
        rintro rfl
        rcases matchFlag_some fl t n hm with h1 | h1 <;>
          exact absurd h1 (by
            have h2 := h t (by simp)
            tauto)
      rw [ih (setFlag fl m) (count + 1) (fun x hx => h x (by simp [hx]))]
      exact flagOn_setFlag_ne fl n m hmn

theorem flagOn_clear (fl : List cmd_flag) (n : String) :
    flagOn (fl.map clearFlag) n = flagDefault fl n := by
  induction fl with
  | nil => rfl
  | cons f rest ih =>
    by_cases hn : f.name = n
    · rw [List.map_cons, flagOn, flagDefault,
        List.find?_cons_of_pos _ (by simpa [clearFlag] using hn),
        List.find?_cons_of_pos _ (by simpa using hn)]
      rfl
    · rw [List.map_cons, flagOn, flagDefault,
        List.find?_cons_of_neg _ (by simpa [clearFlag] using hn),
        List.find?_cons_of_neg _ (by simpa using hn)]
      simpa [flagOn, flagDefault] using ih

theorem resetState_idem (st : GState) : resetState (resetState st) = resetState st := by
  unfold resetState
  simp only [List.map_map]
  have hc : clearFlag ∘ clearFlag = clearFlag := funext fun f => rfl
  rw [hc]

/-! ## Branch structure of `parse` -/

theorem parse_flags_cases (c : Config) (fs : FS) (stIn : GState) (args : List String) :
    (parse c fs stIn args).1.flags = (flagPhase stIn args).1 ∨
    (parse c fs stIn args).1.flags = (resetState stIn).flags := by
  unfold parse
  split
  · exact Or.inr rfl
  · split
    · exact Or.inl rfl
    · split
      · split
        · exact Or.inl rfl
        · split
          · exact Or.inl rfl
          · exact Or.inl rfl
      · split
        · exact Or.inl rfl
        · exact Or.inl rfl

theorem parse_err_state (c : Config) (fs : FS) (stIn : GState) (args : List String) :
    ((parse c fs stIn args).1.source = "" ∧ (parse c fs stIn args).1.target = "") ∨
    (parse c fs stIn args).2 = Outcome.ok := by
  unfold parse
  split
  · exact Or.inl ⟨rfl, rfl⟩
  · split
    · exact Or.inl ⟨rfl, rfl⟩
    · split
      · split
        · exact Or.inl ⟨rfl, rfl⟩
        · split
          · exact Or.inl ⟨rfl, rfl⟩
          · exact Or.inl ⟨rfl, rfl⟩
      · split
        · exact Or.inr rfl
        · exact Or.inl ⟨rfl, rfl⟩

/-! ## Concrete instances used by the witnesses -/

/-- A small concrete filesystem for the witnesses. -/
def exampleFS : FS := ⟨"/cwd", ["/cwd", "/cwd/out", "d"], ["/cwd/a.txt"]⟩

/-- A state left over from a previous parse call, with stale paths and flag
values differing from the configured defaults. -/
def staleState : GState :=
  ⟨"/old/s.txt", "/old/t.csv",
   [⟨"convert", false, true⟩, ⟨"translate", true, false⟩,
    ⟨"help", true, false⟩, ⟨"version", false, false⟩]⟩

/-! ## String-level bridges -/

theorem string_eq_empty_iff (s : String) : s = "" ↔ s.data = [] := by
  constructor
  · intro h
    rw [h]
  · intro h
    apply String.ext
    simpa using h

theorem parentPath_eq_empty_iff (s : String) : parentPath s = "" ↔ '/' ∉ s.data := by
  rw [string_eq_empty_iff]
  exact parentPathL_eq_nil_iff s.data

theorem hasExtension_resolveTarget (src t : String) :
    hasExtension (resolveTarget src t) = hasExtension t := by
  unfold resolveTarget
  split
  · next hp =>
    have hns : '/' ∉ t.data := (parentPath_eq_empty_iff t).mp hp
    show (!(extensionL (pathAppend (parentPath src) t).data).isEmpty)
        = (!(extensionL t.data).isEmpty)
    have h1 : (pathAppend (parentPath src) t).data
        = pathAppendL (parentPath src).data t.data := rfl
    rw [h1]
    unfold extensionL
    rw [fileNameL_pathAppend _ _ hns, fileNameL_of_no_sep _ hns]
  · rfl

/-! ## Branch structure of `parseFiles` -/

theorem parseFiles_two (c : Config) (fs : FS) (s t : String)
    (hnd : isDirectory fs s = false)
    (hex : pathExists fs (resolveSource fs s) = true)
    (hse : c.source_ext.contains (getExtension (resolveSource fs s)) = true) :
    parseFiles c fs [s, t] = targetStage c fs (resolveSource fs s) t := by
  have hse2 : getExtension (resolveSource fs s) ∈ c.source_ext := by simpa using hse
  simp [parseFiles, hnd, hex, hse2]

theorem finishFiles_ok (c : Config) (a b gs gt : String)
    (h : finishFiles c a b = FOut.ok gs gt) :
    gs = a ∧ gt = b ∧ tolower a ≠ tolower b ∧
    c.target_ext.contains (getExtension b) = true := by
  unfold finishFiles at h
  split at h
  · cases h
  · next h1 =>
    split at h
    · cases h
    · next h2 =>
      injection h with ha hb
      exact ⟨ha.symm, hb.symm, h1, by simpa using h2⟩

theorem parseFiles_ok_finish (c : Config) (fs : FS) (f0 : String)
    (rest : List String) (gs gt : String) (hnd : isDirectory fs f0 = false)
    (h : parseFiles c fs (f0 :: rest) = FOut.ok gs gt) :
    ∃ a b, finishFiles c a b = FOut.ok gs gt := by
  have hex : pathExists fs (resolveSource fs f0) = true := by
    by_contra hc
    have hc2 : pathExists fs (resolveSource fs f0) = false := by simpa using hc
    by_cases hl : rest.length > 1
    · simp [parseFiles, hl] at h
    · simp [parseFiles, hl, hnd, hc2] at h
  have hse : c.source_ext.contains (getExtension (resolveSource fs f0)) = true := by
    by_contra hc
    have hc3 : getExtension (resolveSource fs f0) ∉ c.source_ext := by
      simpa using hc
    by_cases hl : rest.length > 1
    · simp [parseFiles, hl] at h
    · simp [parseFiles, hl, hnd, hex, hc3] at h
  have hse2 : getExtension (resolveSource fs f0) ∈ c.source_ext := by simpa using hse
  rcases rest with _ | ⟨t, rest2⟩
  · have hred : parseFiles c fs [f0]
        = finishFiles c (resolveSource fs f0)
            (replaceExtension (resolveSource fs f0) (defaultTargetExt c)) := by
      simp [parseFiles, hnd, hex, hse2]
    rw [hred] at h
    exact ⟨_, _, h⟩
  · rcases rest2 with _ | ⟨u, rest3⟩
    · rw [parseFiles_two c fs f0 t hnd hex hse] at h
      simp only [targetStage] at h
      split at h
      · split at h <;> simp at h
      · split at h
        · split at h
          · simp at h
          · exact ⟨_, _, h⟩
        · exact ⟨_, _, h⟩
    · simp [parseFiles] at h

/-! ## Claims -/

/-- Claim C2: at the start of every parse call, before any argument is
examined, the resolved paths are cleared and every registered flag is reset
to its configured default (an enabled-by-default flag returns to enabled,
not to false); the call behaves exactly as if started from the reset state,
and a flag named by no token of the current argument list reads as its
configured default after the call. -/
theorem C2_reset (c : Config) (fs : FS) (stIn : GState) (args : List String)
    (n : String)
    (h : ∀ t ∈ (tokenize args).1, t ≠ "-" ++ n ∧ t ≠ "--" ++ n) :
    (resetState stIn).source = "" ∧ (resetState stIn).target = "" ∧
    (∀ f ∈ (resetState stIn).flags, f.isOn = f.defaultOn) ∧
    parse c fs stIn args = parse c fs (resetState stIn) args ∧
    flagOn (parse c fs stIn args).1.flags n = flagDefault stIn.flags n := by
  refine ⟨rfl, rfl, ?_, ?_, ?_⟩
  · intro f hf
    obtain ⟨g, hg, rfl⟩ := List.mem_map.mp hf
    rfl
  · simp only [parse, flagPhase, resetState_idem]
  · rcases parse_flags_cases c fs stIn args with hcase | hcase <;> rw [hcase]
    · rw [flagPhase, runFlags_flagOn _ _ _ _ h]
      exact flagOn_clear stIn.flags n
    · exact flagOn_clear stIn.flags n

/-- Witness for C2: a stale state with `convert` disabled and `translate` and
`help` enabled is parsed with an argument list not naming `translate`, and
`translate` reads as its configured default (false) again. -/
theorem C2_reset_witness :
    flagOn (parse defaultConfig exampleFS staleState ["-convert"]).1.flags
      ("translate") = flagDefault staleState.flags ("translate") :=
  (C2_reset defaultConfig exampleFS staleState ["-convert"] ("translate")
    (by decide)).2.2.2.2

/-- Claim C3: a single positional token naming an existing directory parses in
directory mode: the token is the resolved source, the resolved target is
empty, and no extension validation happens (the configuration is arbitrary);
a second positional token beside an existing directory fails with the
too-many-arguments error. -/
theorem C3_directory_mode (c : Config) (fs : FS) (d t : String)
    (hd : isDirectory fs d = true) :
    parseFiles c fs [d] = FOut.ok d ("") ∧
    parseFiles c fs [d, t] = FOut.err ("argument: Too many arguments") := by
  constructor <;> simp [parseFiles, hd]

/-- Witness for C3 at a concrete directory. -/
theorem C3_directory_mode_witness :
    parseFiles defaultConfig exampleFS ["d"] = FOut.ok ("d") ("") ∧
    parseFiles defaultConfig exampleFS ["d", "x"] =
      FOut.err ("argument: Too many arguments") :=
  C3_directory_mode defaultConfig exampleFS ("d") ("x") (by decide)

/-- Claim C4: when the first positional token is not an existing directory, a
token without a directory component is anchored to the current working
directory (one with a directory component is kept as is); a resolved path
that does not exist fails with the could-not-find error, and an existing path
whose lowercased, dot-free extension is not in the configured source list
fails with the invalid-extension error naming the resolved path. -/
theorem C4_source_validation (c : Config) (fs : FS) (s : String)
    (rest : List String) (hlen : rest.length ≤ 1)
    (hnd : isDirectory fs s = false) :
    (parentPath s = "" → resolveSource fs s = pathAppend fs.cwd s) ∧
    (parentPath s ≠ "" → resolveSource fs s = s) ∧
    (pathExists fs (resolveSource fs s) = false →
      parseFiles c fs (s :: rest) =
        FOut.err ("Could not find the source file " ++ s)) ∧
    (pathExists fs (resolveSource fs s) = true →
      c.source_ext.contains (getExtension (resolveSource fs s)) = false →
      parseFiles c fs (s :: rest) =
        FOut.err ("Source file is not a valid extension: " ++ resolveSource fs s)) := by
  have h1 : ¬ (rest.length > 1) := by omega
  refine ⟨fun hp => by simp [resolveSource, hp], fun hp => by simp [resolveSource, hp],
    ?_, ?_⟩
  · intro hne
    simp [parseFiles, h1, hnd, hne]
  · intro hex hsae
    have hsae2 : getExtension (resolveSource fs s) ∉ c.source_ext := by
      simpa using hsae
    simp [parseFiles, h1, hnd, hex, hsae2]

/-- Witness for C4: a source token that resolves against the working directory
to a path that does not exist. -/
theorem C4_source_validation_witness :
    parseFiles defaultConfig exampleFS ["nope.txt"] =
      FOut.err ("Could not find the source file nope.txt") :=
  (C4_source_validation defaultConfig exampleFS ("nope.txt") [] (by decide)
    (by decide)).2.2.1 (by decide)

/-- Claim C10: any parse call returning a recoverable error leaves the
published global paths empty: they are cleared on entry and assigned only on
the success paths, so no partially resolved path is visible after an error. -/
theorem C10_error_paths_empty (c : Config) (fs : FS) (stIn : GState)
    (args : List String) (m : String)
    (h : (parse c fs stIn args).2 = Outcome.err m) :
    (parse c fs stIn args).1.source = "" ∧
    (parse c fs stIn args).1.target = "" := by
  rcases parse_err_state c fs stIn args with hc | hc
  · exact hc
  · rw [h] at hc
    cases hc

/-- Witness for C10 at a failing parse (missing source file) started from a
stale state. -/
theorem C10_error_paths_empty_witness :
    (parse defaultConfig exampleFS staleState ["nope.txt"]).1.source = "" ∧
    (parse defaultConfig exampleFS staleState ["nope.txt"]).1.target = "" :=
  C10_error_paths_empty defaultConfig exampleFS staleState ["nope.txt"]
    ("Could not find the source file nope.txt") (by decide)

/-- Claim C6: an explicit second positional token whose resolved parent
directory is not an existing directory makes parse fail; the message is the
unknown-directory one when the token (equivalently, the resolved target) has
an extension and the missing-directory one when it has none. -/
theorem C6_target_parent (c : Config) (fs : FS) (s t : String)
    (hnd : isDirectory fs s = false)
    (hex : pathExists fs (resolveSource fs s) = true)
    (hse : c.source_ext.contains (getExtension (resolveSource fs s)) = true)
    (hp : parentPath (resolveTarget (resolveSource fs s) t) ≠ "")
    (hpd : isDirectory fs (parentPath (resolveTarget (resolveSource fs s) t)) = false) :
    hasExtension (resolveTarget (resolveSource fs s) t) = hasExtension t ∧
    parseFiles c fs [s, t] =
      FOut.err ((if hasExtension t = true
                 then "Target file has unknown directory "
                 else "Target directory does not exist ")
                ++ resolveTarget (resolveSource fs s) t) := by
  refine ⟨hasExtension_resolveTarget _ _, ?_⟩
  rw [parseFiles_two c fs s t hnd hex hse]
  simp only [targetStage]
  rw [if_pos ⟨hp, by simp [hpd]⟩]
  rw [← hasExtension_resolveTarget (resolveSource fs s) t]
  split
  · rfl
  · rfl

/-- Witness for C6: a second token with an extension whose directory does not
exist. -/
theorem C6_target_parent_witness :
    parseFiles defaultConfig exampleFS ["a.txt", "sub/b.csv"] =
      FOut.err ("Target file has unknown directory sub/b.csv") := by
  have h := (C6_target_parent defaultConfig exampleFS ("a.txt") ("sub/b.csv")
    (by decide) (by decide) (by decide) (by decide) (by decide)).2
  rw [h]
  rfl

/-- Claim C7: an explicit second positional token without an extension that
resolves to an existing directory makes the final target that directory
joined with the source filename, with the extension then replaced by the
default target extension (first entry of the target list). -/
theorem C7_target_directory (c : Config) (fs : FS) (s t gs gt : String)
    (hne : hasExtension (resolveTarget (resolveSource fs s) t) = false)
    (h : parseFiles c fs [s, t] = FOut.ok gs gt) :
    isDirectory fs (resolveTarget (resolveSource fs s) t) = true ∧
    gs = resolveSource fs s ∧
    gt = replaceExtension
          (pathAppend (resolveTarget (resolveSource fs s) t) (fileName gs))
          (defaultTargetExt c) := by
  have hnd : isDirectory fs s = false := by
    by_contra hc
    have hc2 : isDirectory fs s = true := by simpa using hc
    simp [parseFiles, hc2] at h
  have hex : pathExists fs (resolveSource fs s) = true := by
    by_contra hc
    have hc2 : pathExists fs (resolveSource fs s) = false := by simpa using hc
    simp [parseFiles, hnd, hc2] at h
  have hse : c.source_ext.contains (getExtension (resolveSource fs s)) = true := by
    by_contra hc
    have hc3 : getExtension (resolveSource fs s) ∉ c.source_ext := by simpa using hc
    simp [parseFiles, hnd, hex, hc3] at h
  rw [parseFiles_two c fs s t hnd hex hse] at h
  simp only [targetStage] at h
  split at h
  · split at h <;> cases h
  · rw [if_pos (by simp [hne])] at h
    split at h
    · cases h
    · next hdir =>
      obtain ⟨hgs, hgt, hne2, hte⟩ := finishFiles_ok _ _ _ _ _ h
      refine ⟨by simpa using hdir, hgs, ?_⟩
      rw [hgt, hgs]

/-- Witness for C7: a second token naming an existing directory next to the
source; the target is composed inside it from the source filename. -/
theorem C7_target_directory_witness :
    isDirectory exampleFS (resolveTarget (resolveSource exampleFS ("a.txt")) ("out"))
      = true ∧
    ("/cwd/a.txt" : String) = resolveSource exampleFS ("a.txt") ∧
    ("/cwd/out/a.csv" : String) = replaceExtension
      (pathAppend (resolveTarget (resolveSource exampleFS ("a.txt")) ("out"))
        (fileName ("/cwd/a.txt")))
      (defaultTargetExt defaultConfig) :=
  C7_target_directory defaultConfig exampleFS ("a.txt") ("out")
    ("/cwd/a.txt") ("/cwd/out/a.csv") (by decide) (by decide)

/-- Claim C8: the identity check compares the fully resolved source and target
strings case-insensitively and fails with the same-files error when they are
equal; consequently, outside directory mode a successful parse never returns
paths that are case-insensitively equal. -/
theorem C8_identity (c : Config) (fs : FS) (files : List String)
    (src tgt gs gt : String) :
    (tolower src = tolower tgt →
      finishFiles c src tgt = FOut.err ("Source and target files are the same")) ∧
    (isDirectory fs (files.headD ("")) = false →
      parseFiles c fs files = FOut.ok gs gt → tolower gs ≠ tolower gt) := by
  constructor
  · intro heq
    simp [finishFiles, heq]
  · intro hnd h
    rcases files with _ | ⟨f0, rest⟩
    · simp [parseFiles] at h
    · have hnd2 : isDirectory fs f0 = false := by simpa using hnd
      obtain ⟨a, b, hfin⟩ := parseFiles_ok_finish c fs f0 rest gs gt hnd2 h
      obtain ⟨ha, hb, hne2, hte⟩ := finishFiles_ok c a b gs gt hfin
      rw [ha, hb]
      exact hne2

/-- Witness for C8: case-insensitively equal paths hit the identity error, and
a successful non-directory parse yields case-insensitively distinct paths. -/
theorem C8_identity_witness :
    finishFiles defaultConfig ("A.TXT") ("a.txt") =
      FOut.err ("Source and target files are the same") ∧
    tolower ("/cwd/a.txt") ≠ tolower ("/cwd/a.csv") :=
  ⟨(C8_identity defaultConfig exampleFS [] ("A.TXT") ("a.txt") ("") ("")).1
      (by decide),
   (C8_identity defaultConfig exampleFS ["a.txt"] ("") ("")
      ("/cwd/a.txt") ("/cwd/a.csv")).2 (by decide) (by decide)⟩

/-- Claim C5: with a valid source file and no second positional token, a
successful parse resolves the target to the source path with its extension
replaced by the first entry of the target-extension list: the target stem
equals the source stem and the target extension is the (lowercased) default
target extension. The side conditions say that the configured extensions are
ordinary tokens: the empty extension is not accepted for sources, and the
default target extension is nonempty without dots or separators. -/
theorem C5_default_target (c : Config) (fs : FS) (s gs gt : String)
    (hnd : isDirectory fs s = false)
    (h : parseFiles c fs [s] = FOut.ok gs gt)
    (h0 : ("") ∉ c.source_ext)
    (he : defaultTargetExt c ≠ "")
    (hdot : ('.') ∉ (defaultTargetExt c).data)
    (hsep : ('/') ∉ (defaultTargetExt c).data) :
    gs = resolveSource fs s ∧
    gt = replaceExtension gs (defaultTargetExt c) ∧
    stem gt = stem gs ∧
    getExtension gt = tolower (defaultTargetExt c) := by
  have hex : pathExists fs (resolveSource fs s) = true := by
    by_contra hc
    have hc2 : pathExists fs (resolveSource fs s) = false := by simpa using hc
    simp [parseFiles, hnd, hc2] at h
  have hse : c.source_ext.contains (getExtension (resolveSource fs s)) = true := by
    by_contra hc
    have hc3 : getExtension (resolveSource fs s) ∉ c.source_ext := by simpa using hc
    simp [parseFiles, hnd, hex, hc3] at h
  have hse2 : getExtension (resolveSource fs s) ∈ c.source_ext := by simpa using hse
  have hred : parseFiles c fs [s]
      = finishFiles c (resolveSource fs s)
          (replaceExtension (resolveSource fs s) (defaultTargetExt c)) := by
    simp [parseFiles, hnd, hex, hse2]
  rw [hred] at h
  obtain ⟨hgs, hgt, hne2, hte⟩ := finishFiles_ok _ _ _ _ _ h
  have hgne : getExtension (resolveSource fs s) ≠ "" := by
    rintro hg
    rw [hg] at hse2
    exact h0 hse2
  have hgneL : getExtensionL (resolveSource fs s).data ≠ [] := by
    intro hc
    apply hgne
    apply (string_eq_empty_iff _).mpr
    simpa [getExtension] using hc
  have hextne : extensionL (resolveSource fs s).data ≠ [] :=
    extensionL_ne_nil_of_getExtension _ hgneL
  have heL : (defaultTargetExt c).data ≠ [] :=
    fun hc => he ((string_eq_empty_iff _).mpr hc)
  have hrepl := extensionL_replace (resolveSource fs s).data
    (defaultTargetExt c).data hextne heL hdot hsep
  have hgetE := getExtensionL_replace (resolveSource fs s).data
    (defaultTargetExt c).data hextne heL hdot hsep
  refine ⟨hgs, by rw [hgt, hgs], ?_, ?_⟩
  · rw [hgt, hgs]
    show (⟨stemL (replaceExtension (resolveSource fs s)
      (defaultTargetExt c)).data⟩ : String) = ⟨stemL (resolveSource fs s).data⟩
    exact congrArg String.mk (by
      have h2 : (replaceExtension (resolveSource fs s) (defaultTargetExt c)).data
          = replaceExtensionL (resolveSource fs s).data (defaultTargetExt c).data := rfl
      rw [h2]
      exact hrepl.2.1)
  · rw [hgt]
    show (⟨getExtensionL (replaceExtension (resolveSource fs s)
      (defaultTargetExt c)).data⟩ : String) = ⟨tolowerL (defaultTargetExt c).data⟩
    exact congrArg String.mk (by
      have h2 : (replaceExtension (resolveSource fs s) (defaultTargetExt c)).data
          = replaceExtensionL (resolveSource fs s).data (defaultTargetExt c).data := rfl
      rw [h2]
      exact hgetE)

/-- Witness for C5 at a concrete source file; the derived target is the source
with the default target extension. -/
theorem C5_default_target_witness :
    ("/cwd/a.txt" : String) = resolveSource exampleFS ("a.txt") ∧
    ("/cwd/a.csv" : String) =
      replaceExtension ("/cwd/a.txt") (defaultTargetExt defaultConfig) ∧
    stem ("/cwd/a.csv") = stem ("/cwd/a.txt") ∧
    getExtension ("/cwd/a.csv") = tolower (defaultTargetExt defaultConfig) :=
  C5_default_target defaultConfig exampleFS ("a.txt") ("/cwd/a.txt") ("/cwd/a.csv")
    (by decide) (by decide) (by decide) (by decide) (by decide) (by decide)

/-! ## The help/version short-circuit and the configuration check -/

theorem checkError_spec (c : Config) (fl : List cmd_flag) :
    checkError c fl ≠ none ↔
      (c.source_ext = [] ∨ c.target_ext = [] ∨
       (fl.map cmd_flag.name).contains ("help") = false ∨
       (fl.map cmd_flag.name).contains ("version") = false ∨
       fl.length < 3) := by
  unfold checkError
  split_ifs with h1 h2 h3 h4 <;> (simp_all; try tauto)

theorem checkError_v1_spec (c : Config) (fl : List cmd_flag) :
    checkError_v1 c fl ≠ none ↔
      (c.source_ext = [] ∨ c.target_ext = [] ∨ c.source_ext = c.target_ext ∨
       (fl.map cmd_flag.name).contains ("help") = false ∨
       (fl.map cmd_flag.name).contains ("version") = false ∨
       fl.length < 3) := by
  unfold checkError_v1
  split_ifs with h1 h2 h3 h4 h5 <;> (simp_all; try tauto)

/-- Claim C9: the configuration check runs before any argument is examined: a
failing check yields the thrown (fatal) outcome, identical for every argument
list and never the recoverable error return; and the check fails exactly when
an extension list is empty, the registry lacks the help or version flag, or
the registry has fewer than 3 entries — plus, in the `src/CmdArgs.h` variant
of `check` (`checkError_v1`), when the source and target extension lists are
identical. -/
theorem C9_config_check (c : Config) (fs : FS) (stIn : GState)
    (args1 args2 : List String) (fl : List cmd_flag) :
    (∀ m, checkError c (resetState stIn).flags = some m →
      parse c fs stIn args1 = (resetState stIn, Outcome.thrown m) ∧
      parse c fs stIn args1 = parse c fs stIn args2 ∧
      ∀ m2, (parse c fs stIn args1).2 ≠ Outcome.err m2) ∧
    (checkError c fl ≠ none ↔
      (c.source_ext = [] ∨ c.target_ext = [] ∨
       (fl.map cmd_flag.name).contains ("help") = false ∨
       (fl.map cmd_flag.name).contains ("version") = false ∨
       fl.length < 3)) ∧
    (checkError_v1 c fl ≠ none ↔
      (c.source_ext = [] ∨ c.target_ext = [] ∨ c.source_ext = c.target_ext ∨
       (fl.map cmd_flag.name).contains ("help") = false ∨
       (fl.map cmd_flag.name).contains ("version") = false ∨
       fl.length < 3)) := by
  refine ⟨?_, checkError_spec c fl, checkError_v1_spec c fl⟩
  intro m hm
  have h1 : parse c fs stIn args1 = (resetState stIn, Outcome.thrown m) := by
    unfold parse
    rw [hm]
  have h2 : parse c fs stIn args2 = (resetState stIn, Outcome.thrown m) := by
    unfold parse
    rw [hm]
  refine ⟨h1, h1.trans h2.symm, ?_⟩
  intro m2 hc
  rw [h1] at hc
  exact Outcome.noConfusion hc

/-- Witness for C9: an empty source-extension list throws before looking at
the arguments, and identical extension lists fail the `src/CmdArgs.h` check. -/
theorem C9_config_check_witness :
    parse ⟨[], ["csv"]⟩ exampleFS defaultState ["a.txt"] =
      (resetState defaultState,
        Outcome.thrown ("Error: source_ext or target_ext is not defined.")) ∧
    checkError_v1 ⟨["txt"], ["txt"]⟩ cmd_flags ≠ none :=
  ⟨((C9_config_check ⟨[], ["csv"]⟩ exampleFS defaultState ["a.txt"] [] cmd_flags).1
      _ (by rfl)).1,
   ((C9_config_check ⟨["txt"], ["txt"]⟩ exampleFS defaultState [] [] cmd_flags).2.2).mpr
      (by right; right; left; rfl)⟩

/-- Counterexample to claim C1 as stated: with the argument list
`["-help", "-help"]` the help flag becomes enabled, no other flag changes
from its configured default, and there are zero positional tokens, so the
claim requires the informational success exit; the code instead fails with
the too-many-arguments error, because it counts matched flag tokens (here 2)
rather than enabled flags. -/
theorem C1_counterexample :
    (tokenize ["-help", "-help"]).2 = [] ∧
    (parse defaultConfig exampleFS defaultState ["-help", "-help"]).1.flags =
      [⟨"convert", true, true⟩, ⟨"translate", false, false⟩,
       ⟨"help", true, false⟩, ⟨"version", false, false⟩] ∧
    (parse defaultConfig exampleFS defaultState ["-help", "-help"]).2 =
      Outcome.err ("argument: Too many arguments") ∧
    (parse defaultConfig exampleFS defaultState ["-help", "-help"]).2 ≠
      Outcome.exited 0 text_help := by
  refine ⟨rfl, rfl, rfl, ?_⟩
  intro hc
  rw [show (parse defaultConfig exampleFS defaultState ["-help", "-help"]).2 =
    Outcome.err ("argument: Too many arguments") from rfl] at hc
  exact Outcome.noConfusion hc

/-- Claim C1 (amended): when help or version is enabled after the flag phase,
parse fails with the too-many-arguments error exactly when more than one flag
token was matched (even repeated tokens of the same flag) or a positional
token is present; otherwise it prints the help text (preferred) or the
version text and terminates the process with exit code 0, never returning
flag or path results. -/
theorem C1_amended (c : Config) (fs : FS) (stIn : GState) (args : List String)
    (hchk : checkError c (resetState stIn).flags = none)
    (herr : (flagPhase stIn args).2.2 = none)
    (hhv : flagOn (flagPhase stIn args).1 ("help") = true
        ∨ flagOn (flagPhase stIn args).1 ("version") = true) :
    parse c fs stIn args =
      (if (flagPhase stIn args).2.1 > 1 ∨ (tokenize args).2.length ≠ 0 then
        ({ resetState stIn with flags := (flagPhase stIn args).1 },
          Outcome.err ("argument: Too many arguments"))
      else if flagOn (flagPhase stIn args).1 ("help") = true then
        ({ resetState stIn with flags := (flagPhase stIn args).1 },
          Outcome.exited 0 text_help)
      else
        ({ resetState stIn with flags := (flagPhase stIn args).1 },
          Outcome.exited 0 text_version)) := by
  unfold parse
  rw [hchk, herr, if_pos hhv]

/-- Witness for C1 (amended): a lone version flag prints the version text and
exits with code 0. -/
theorem C1_amended_witness :
    (parse defaultConfig exampleFS defaultState ["-version"]).2 =
      Outcome.exited 0 text_version := by
  have h := C1_amended defaultConfig exampleFS defaultState ["-version"]
    (by rfl) (by rfl) (Or.inr (by rfl))
  rw [h]
  rfl

end CmdArgs
